import Mathlib

set_option linter.unusedSectionVars false

/-!
A shallow embedding of the disk-backed object cache in `cache.hxx` (namespace `mrr`),
together with proofs about its operations.

Modelling conventions:
* A filesystem path (`boost::filesystem::path`) is a list of components.
* The filesystem holds an association list of file paths to serialized contents
  (type parameter `B`, the byte format produced by the serialization policy) and a
  list of existing directories.
* The in-memory table `m_cache : std::map<Key, std::shared_ptr<Value>>` is an
  association list `List (K × Option V)`; a `none` second component is a null
  `shared_ptr` (a negative cache entry).  `std::map` iterates in key order while the
  model iterates in list order; the difference is observable only when two distinct
  keys map to the same filename.
* The serialization policy is abstracted as `ser : V → B` / `deser : B → V`
  (`Serialize`/`Deserialize` with the opaque `"xml"` tag).
* Locking is the default `NoConcurrencyControl` policy: every lock is a no-op, so
  the operations are pure state transitions.
* `boost::filesystem::create_directories(p)` creates every missing component of `p`
  and returns `true` iff at least one new directory was created; on an error it
  throws, which the model leaves out (directory creation always succeeds).
* `boost::filesystem::rename` moves a whole directory tree.
-/

namespace Mrr

/-- A filesystem path, as its list of components. -/
abbrev Path : Type := List String

/-- Association-list lookup keyed on the first component. -/
def lookupList {α β : Type} [DecidableEq α] : List (α × β) → α → Option β
  | [], _ => none
  | e :: rest, a => if e.1 = a then some e.2 else lookupList rest a

/-- Association-list update: bind `a` to `b`, dropping any previous binding. -/
def setList {α β : Type} [DecidableEq α] (l : List (α × β)) (a : α) (b : β) :
    List (α × β) :=
  (a, b) :: l.filter (fun e => decide (e.1 ≠ a))

/-- Association-list removal of every binding of `a`. -/
def eraseList {α β : Type} [DecidableEq α] (l : List (α × β)) (a : α) :
    List (α × β) :=
  l.filter (fun e => decide (e.1 ≠ a))

/-- The filesystem state: file contents (serialized form `B`) and directories. -/
structure FS (B : Type) where
  files : List (Path × B)
  dirs : List Path
deriving DecidableEq, Repr

/-- Whether a regular file exists at `p`. -/
def fileExists {B : Type} (fs : FS B) (p : Path) : Bool :=
  (lookupList fs.files p).isSome

/-- Whether a directory exists at `p`. -/
def dirExists {B : Type} (fs : FS B) (p : Path) : Bool :=
  decide (p ∈ fs.dirs)

/-- `boost::filesystem::exists`: anything (file or directory) exists at `p`. -/
def existsPath {B : Type} (fs : FS B) (p : Path) : Bool :=
  fileExists fs p || dirExists fs p

/-- Write serialized content `b` to the file at `p` (creating or truncating it),
as `std::ofstream` followed by `Serialize` does. -/
def setFile {B : Type} (fs : FS B) (p : Path) (b : B) : FS B :=
  { fs with files := setList fs.files p b }

/-- The nonempty initial segments of a path, shortest first: the components that
`boost::filesystem::create_directories` walks. -/
def pathInits (p : Path) : List Path :=
  (List.range p.length).map (fun i => p.take (i + 1))

/-- `boost::filesystem::create_directories(p)`: create every missing component of
`p`; the returned Bool is `true` iff at least one new directory was created. -/
def createDirectories {B : Type} (fs : FS B) (p : Path) : Bool × FS B :=
  let missing := (pathInits p).filter (fun q => ! dirExists fs q)
  (! missing.isEmpty, { fs with dirs := fs.dirs ++ missing })

/-- Where a path moves when the tree rooted at `src` is renamed to `dst`. -/
def renamePath (src dst p : Path) : Path :=
  if src.isPrefixOf p then dst ++ p.drop src.length else p

/-- `boost::filesystem::rename(src, dst)` on a directory: the whole tree under
`src` moves to `dst`. -/
def rename {B : Type} (fs : FS B) (src dst : Path) : FS B :=
  { files := fs.files.map (fun e => (renamePath src dst e.1, e.2)),
    dirs := fs.dirs.map (renamePath src dst) }

/-- The state of a `mrr::Cache<Key, Value>`: the in-memory table `m_cache` and the
filesystem it is backed by.  A table entry `(k, none)` is a null `shared_ptr`
(negative cache entry); `(k, some v)` is a loaded value. -/
structure CacheState (K V B : Type) where
  table : List (K × Option V)
  fs : FS B
deriving DecidableEq, Repr

section Ops

variable {K V B : Type} [DecidableEq K] [Inhabited V]
variable (fn : K → Path) (ser : V → B) (deser : B → V)

/-- `Cache::loadFromDisk`: if anything exists at the filename, open it and
deserialize; otherwise return a null pointer.  When the path exists but holds no
regular file (a directory), the `std::ifstream` fails to open and `Deserialize`
leaves the default-constructed value, hence the `default` branch. -/
def loadFromDisk (fs : FS B) (k : K) : Option V :=
  let filename := fn k
  if existsPath fs filename then
    some (match lookupList fs.files filename with
          | some b => deser b
          | none => default)
  else
    none

/-- `Cache::writeToDisk`: serialize `v` to the filename for `k`, overwriting. -/
def writeToDisk (fs : FS B) (k : K) (v : V) : FS B :=
  setFile fs (fn k) (ser v)

/-- `Cache::operator[]`: return the table entry if present, otherwise load from
disk and record the result (value or null) in the table. -/
def lookup (s : CacheState K V B) (k : K) : Option V × CacheState K V B :=
  match lookupList s.table k with
  | some ptr => (ptr, s)
  | none =>
      let ptr := loadFromDisk fn deser s.fs k
      (ptr, { s with table := setList s.table k ptr })

/-- `Cache::refresh`: if `k` has a table entry (present or negative), replace it by
re-loading from disk; otherwise do nothing. -/
def refresh (s : CacheState K V B) (k : K) : CacheState K V B :=
  match lookupList s.table k with
  | some _ => { s with table := setList s.table k (loadFromDisk fn deser s.fs k) }
  | none => s

/-- `Cache::erase`: drop the table entry for `k` from memory only. -/
def erase (s : CacheState K V B) (k : K) : CacheState K V B :=
  match lookupList s.table k with
  | some _ => { s with table := eraseList s.table k }
  | none => s

/-- `Cache::create`: fail if anything already exists at the filename; otherwise run
`create_directories` on the parent directory and fail when it reports that no new
directory was created; otherwise write the serialized value and `refresh` the
entry for `k`. -/
def create (s : CacheState K V B) (k : K) (v : V) : Bool × CacheState K V B :=
  let filename := fn k
  if existsPath s.fs filename then
    (false, s)
  else
    let directory := filename.dropLast
    let dres := createDirectories s.fs directory
    if ! dres.1 then
      (false, { s with fs := dres.2 })
    else
      let fs2 := setFile dres.2 filename (ser v)
      (true, refresh fn deser { s with fs := fs2 } k)

/-- `Cache::remove`: fail if nothing exists at the parent directory of the
filename; otherwise create the trash directory's parent if absent, rename the
parent directory into the trash tree, and `erase` the table entry. -/
def remove (s : CacheState K V B) (k : K) : Bool × CacheState K V B :=
  let filename := fn k
  let directory := filename.dropLast
  if ! existsPath s.fs directory then
    (false, s)
  else
    let trash_directory := directory.dropLast ++ ["trash"] ++ directory
    let fs1 :=
      if ! existsPath s.fs trash_directory.dropLast then
        (createDirectories s.fs trash_directory.dropLast).2
      else
        s.fs
    let fs2 := rename fs1 directory trash_directory
    (true, erase { s with fs := fs2 } k)

/-- The body of `Cache::save`'s loop: write every non-null entry to disk. -/
def saveFiles : List (K × Option V) → FS B → FS B
  | [], fs => fs
  | (k, some v) :: rest, fs => saveFiles rest (writeToDisk fn ser fs k v)
  | (_, none) :: rest, fs => saveFiles rest fs

/-- `Cache::save`: write every non-null table entry to its storage location,
skipping null (negative) entries; the table itself is untouched. -/
def save (s : CacheState K V B) : CacheState K V B :=
  { s with fs := saveFiles fn ser s.table s.fs }

/-- `Cache::forceClear`: drop every table entry without saving. -/
def forceClear (s : CacheState K V B) : CacheState K V B :=
  { s with table := [] }

/-- `Cache::clear` as evidently intended: `save()` then drop the table.
The source calls `this->force_clear()`, but no base or member of `Cache` declares
`force_clear` (the member is spelled `forceClear`; the `force_clear` spelling
exists only in the separate `PolymorphicCache`), so any instantiation of
`Cache::clear` fails to compile; this definition models the intent documented at
the call site ("Remove all entries from the in-memory cache, writing any changes
to disk first"). -/
def clear (s : CacheState K V B) : CacheState K V B :=
  forceClear (save fn ser s)

/-- `Cache::callUpdateMemFn`: look the value up (loading if needed); fail on a
null pointer, otherwise apply the mutating member function to the shared value
(which the table entry aliases) and succeed. -/
def callUpdateMemFn (s : CacheState K V B) (k : K) (mutate : V → V) :
    Bool × CacheState K V B :=
  let res := lookup fn deser s k
  match res.1 with
  | none => (false, res.2)
  | some v => (true, { res.2 with table := setList res.2.table k (some (mutate v)) })

/-- `Cache::callGetterMemFn`: look the value up (loading if needed); on a null
pointer return `(false, default)`, otherwise `(true, getter result)`. -/
def callGetterMemFn {T : Type} [Inhabited T] (s : CacheState K V B) (k : K)
    (getter : V → T) : (Bool × T) × CacheState K V B :=
  let res := lookup fn deser s k
  match res.1 with
  | none => ((false, default), res.2)
  | some v => ((true, getter v), res.2)

end Ops

section Aux

variable {K V B : Type} [DecidableEq K] [Inhabited V]
variable (fn : K → Path) (ser : V → B) (deser : B → V)

/-- The trash directory `remove` computes for a given filename:
`directory.parent_path() / "trash" / directory` where `directory` is the
filename's parent. -/
def trashDir (filename : Path) : Path :=
  filename.dropLast.dropLast ++ ["trash"] ++ filename.dropLast

/-- The serialized content that `save`'s loop leaves at path `p`: the last
non-null table entry whose filename is `p`, if any. -/
def savedAt : List (K × Option V) → Path → Option B
  | [], _ => none
  | (k, some v) :: rest, p =>
      match savedAt rest p with
      | some b => some b
      | none => if fn k = p then some (ser v) else none
  | (_, none) :: rest, p => savedAt rest p

end Aux

/-! Concrete instances used by witnesses and counterexamples: keys, values and
serialized bytes are all `Nat`, with the identity serialization. -/

/-- A filename function giving every key its own directory, as in the repository's
demo program: `data/<k>/value.txt`. -/
def fnPerKey : Nat → Path := fun k => ["data", Nat.repr k, "value.txt"]

/-- A filename function storing all keys as sibling files of one shared directory:
`data/common/<k>`. -/
def fnShared : Nat → Path := fun k => ["data", "common", Nat.repr k]

/-- The empty cache over an empty filesystem. -/
def sEmpty : CacheState Nat Nat Nat := ⟨[], ⟨[], []⟩⟩

/-- A state where key 1 was created under `fnShared` (its file and the shared
parent directory exist) and the table is empty. -/
def sShared1 : CacheState Nat Nat Nat :=
  ⟨[], ⟨[(["data", "common", "1"], 11)], [["data"], ["data", "common"]]⟩⟩

/-- A state where key 5's directory `data/5` exists but its storage file
`data/5/value.txt` does not, and key 5 is loaded in the table. -/
def sDirOnly5 : CacheState Nat Nat Nat :=
  ⟨[(5, some 9)], ⟨[], [["data"], ["data", "5"]]⟩⟩

/-- A state where key 5 exists on disk under `fnPerKey` and is loaded. -/
def sFull5 : CacheState Nat Nat Nat :=
  ⟨[(5, some 9)], ⟨[(["data", "5", "value.txt"], 9)], [["data"], ["data", "5"]]⟩⟩

/-- A state where key 3 exists on disk under `fnPerKey` with serialized content 8
while the table holds the diverged value 4 for it. -/
def sDisk3 : CacheState Nat Nat Nat :=
  ⟨[(3, some 4)], ⟨[(["data", "3", "value.txt"], 8)], [["data"], ["data", "3"]]⟩⟩

/-- A state where key 3 exists on disk under `fnPerKey` with serialized content 8
and the table is empty. -/
def sDiskOnly3 : CacheState Nat Nat Nat :=
  ⟨[], ⟨[(["data", "3", "value.txt"], 8)], [["data"], ["data", "3"]]⟩⟩

/-! ## Association-list lemmas -/

theorem lookupList_setList_self {α β : Type} [DecidableEq α]
    (l : List (α × β)) (a : α) (b : β) :
    lookupList (setList l a b) a = some b := by
  simp [setList, lookupList]

theorem lookupList_filter_ne {α β : Type} [DecidableEq α]
    (l : List (α × β)) {a c : α} (h : c ≠ a) :
    lookupList (l.filter (fun e => ! decide (e.1 = a))) c = lookupList l c := by
  induction l with
  | nil => rfl
  | cons e rest ih =>
      by_cases he : e.1 = a
      · simpa [List.filter, he, lookupList, Ne.symm h] using ih
      · simp [List.filter, he, lookupList, ih]

theorem lookupList_setList_ne {α β : Type} [DecidableEq α]
    (l : List (α × β)) {a c : α} (b : β) (h : c ≠ a) :
    lookupList (setList l a b) c = lookupList l c := by
  simp only [setList, ne_eq, decide_not, lookupList, Ne.symm h, if_false,
    if_neg (Ne.symm h)]
  exact lookupList_filter_ne l h

theorem lookupList_filter_self {α β : Type} [DecidableEq α]
    (l : List (α × β)) (a : α) :
    lookupList (l.filter (fun e => ! decide (e.1 = a))) a = none := by
  induction l with
  | nil => rfl
  | cons e rest ih =>
      by_cases he : e.1 = a
      · simpa [List.filter, he] using ih
      · simp [List.filter, he, lookupList, ih]

theorem lookupList_eraseList_self {α β : Type} [DecidableEq α]
    (l : List (α × β)) (a : α) :
    lookupList (eraseList l a) a = none := by
  simp only [eraseList, ne_eq, decide_not]
  exact lookupList_filter_self l a

theorem lookupList_eraseList_ne {α β : Type} [DecidableEq α]
    (l : List (α × β)) {a c : α} (h : c ≠ a) :
    lookupList (eraseList l a) c = lookupList l c := by
  simp only [eraseList, ne_eq, decide_not]
  exact lookupList_filter_ne l h

theorem lookupList_map_ne {α β : Type} [DecidableEq α]
    (f : α → α) (l : List (α × β)) (q : α) (h : ∀ e ∈ l, f e.1 ≠ q) :
    lookupList (l.map (fun e => (f e.1, e.2))) q = none := by
  induction l with
  | nil => rfl
  | cons e rest ih =>
      rw [List.map_cons]
      show lookupList ((f e.1, e.2) :: List.map _ rest) q = none
      rw [lookupList, if_neg (h e (List.mem_cons_self e rest))]
      exact ih (fun x hx => h x (List.mem_cons_of_mem e hx))

theorem lookupList_map_eq {α β : Type} [DecidableEq α]
    (f : α → α) (l : List (α × β)) (a : α)
    (hinj : ∀ e ∈ l, f e.1 = f a → e.1 = a) :
    lookupList (l.map (fun e => (f e.1, e.2))) (f a) = lookupList l a := by
  induction l with
  | nil => rfl
  | cons e rest ih =>
      have ih2 := ih (fun x hx hfx => hinj x (List.mem_cons_of_mem e hx) hfx)
      by_cases hf : f e.1 = f a
      · have he : e.1 = a := hinj e (List.mem_cons_self e rest) hf
        simp [lookupList, hf, he]
      · have he : e.1 ≠ a := fun h => hf (by rw [h])
        simp [lookupList, hf, he, ih2]

/-! ## Path lemmas -/

theorem isPrefixOf_dropLast (l : Path) : l.dropLast.isPrefixOf l = true := by
  induction l with
  | nil => rfl
  | cons a rest ih =>
      cases rest with
      | nil => rfl
      | cons b rest2 => simpa [List.dropLast, List.isPrefixOf] using ih

theorem isPrefixOf_append (l t : Path) : l.isPrefixOf (l ++ t) = true := by
  induction l with
  | nil => simp [List.isPrefixOf]
  | cons a rest ih => simp [List.isPrefixOf, ih]

theorem renamePath_ne {src dst q : Path} (hq : src.isPrefixOf q = true)
    (hd : dst.isPrefixOf q = false) : ∀ x, renamePath src dst x ≠ q := by
  intro x hx
  unfold renamePath at hx
  split at hx
  · rw [← hx] at hd
    rw [isPrefixOf_append dst (x.drop src.length)] at hd
    exact Bool.noConfusion hd
  · rename_i hs
    rw [hx] at hs
    exact hs hq

/-! ## Operation-level helper lemmas -/

section OpLemmas

variable {K V B : Type} [DecidableEq K] [Inhabited V]
variable (fn : K → Path) (ser : V → B) (deser : B → V)

theorem files_setFile (fs : FS B) (p : Path) (b : B) :
    (setFile fs p b).files = setList fs.files p b := rfl

theorem loadFromDisk_of_file (fs : FS B) (k : K) {b : B}
    (hb : lookupList fs.files (fn k) = some b) :
    loadFromDisk fn deser fs k = some (deser b) := by
  have hex : existsPath fs (fn k) = true := by
    simp [existsPath, fileExists, hb]
  simp [loadFromDisk, hex, hb]

theorem loadFromDisk_of_absent (fs : FS B) (k : K)
    (h : existsPath fs (fn k) = false) :
    loadFromDisk fn deser fs k = none := by
  simp [loadFromDisk, h]

theorem erase_fs (s : CacheState K V B) (k : K) : (erase s k).fs = s.fs := by
  unfold erase
  split <;> rfl

theorem lookupList_erase_self (s : CacheState K V B) (k : K) :
    lookupList (erase s k).table k = none := by
  unfold erase
  split
  · exact lookupList_eraseList_self s.table k
  · assumption

theorem lookupList_erase_ne (s : CacheState K V B) {k k2 : K} (h : k2 ≠ k) :
    lookupList (erase s k).table k2 = lookupList s.table k2 := by
  unfold erase
  split
  · exact lookupList_eraseList_ne s.table h
  · rfl

theorem saveFiles_dirs (t : List (K × Option V)) (fs : FS B) :
    (saveFiles fn ser t fs).dirs = fs.dirs := by
  induction t generalizing fs with
  | nil => rfl
  | cons e rest ih =>
      obtain ⟨k, v⟩ := e
      cases v with
      | none => simpa [saveFiles] using ih fs
      | some v => simpa [saveFiles, writeToDisk, setFile] using ih (setFile fs (fn k) (ser v))

theorem lookupList_saveFiles (t : List (K × Option V)) (fs : FS B) (p : Path) :
    lookupList (saveFiles fn ser t fs).files p =
      match savedAt fn ser t p with
      | some b => some b
      | none => lookupList fs.files p := by
  induction t generalizing fs with
  | nil => rfl
  | cons e rest ih =>
      obtain ⟨k, v⟩ := e
      cases v with
      | none => simpa [saveFiles, savedAt] using ih fs
      | some v =>
          rw [show saveFiles fn ser ((k, some v) :: rest) fs
                = saveFiles fn ser rest (writeToDisk fn ser fs k v) from rfl, ih]
          cases hsv : savedAt fn ser rest p with
          | some b => simp [savedAt, hsv]
          | none =>
              by_cases hk : fn k = p
              · subst hk
                simp [savedAt, hsv, writeToDisk, setFile, lookupList_setList_self]
              · simp [savedAt, hsv, hk, writeToDisk, setFile,
                  lookupList_setList_ne fs.files (ser v) (Ne.symm hk)]

theorem existsPath_rename_false {B : Type} (fs : FS B) {src dst q : Path}
    (h : ∀ x, renamePath src dst x ≠ q) :
    existsPath (rename fs src dst) q = false := by
  have hf : fileExists (rename fs src dst) q = false := by
    show (lookupList (fs.files.map (fun e => (renamePath src dst e.1, e.2))) q).isSome
      = false
    rw [lookupList_map_ne (renamePath src dst) fs.files q (fun e _ => h e.1)]
    rfl
  have hd : dirExists (rename fs src dst) q = false := by
    show decide (q ∈ fs.dirs.map (renamePath src dst)) = false
    simp only [decide_eq_false_iff_not, List.mem_map]
    rintro ⟨x, _, hx⟩
    exact h x hx
  show (fileExists (rename fs src dst) q || dirExists (rename fs src dst) q) = false
  rw [hf, hd]
  rfl

theorem refresh_fs (s : CacheState K V B) (k : K) :
    (refresh fn deser s k).fs = s.fs := by
  unfold refresh
  split <;> rfl

/-- If `create` reports success, then nothing existed at the storage location,
`create_directories` reported a new directory, and the final state is the refresh
of the state that has the serialized value written at the storage location. -/
theorem create_true_cases (s : CacheState K V B) (k : K) (v : V)
    (hsucc : (create fn ser deser s k v).1 = true) :
    existsPath s.fs (fn k) = false
    ∧ (create fn ser deser s k v).2 =
        refresh fn deser
          { s with fs := setFile (createDirectories s.fs ((fn k).dropLast)).2 (fn k) (ser v) } k := by
  by_cases h1 : existsPath s.fs (fn k) = true
  · exfalso
    simp [create, h1] at hsucc
  · refine ⟨by simpa using h1, ?_⟩
    by_cases h2 : (createDirectories s.fs ((fn k).dropLast)).1 = true
    · simp [create, h1, h2]
    · exfalso
      simp [create, h1, h2] at hsucc

end OpLemmas

/-! ## Claim theorems -/

section Claims

variable {K V B : Type} [DecidableEq K] [Inhabited V]
variable (fn : K → Path) (ser : V → B) (deser : B → V)

/-- C3, counterexample to the claim as stated: on an empty filesystem, looking up
key 1 installs a negative entry, a subsequent `create(1, 7)` succeeds, and the
very next `lookup(1)` already reports the created value even though `refresh` was
never called explicitly — the negative entry does not keep reporting absence. -/
theorem C3_counterexample :
    (lookup fnPerKey id sEmpty 1).1 = none
    ∧ lookupList (lookup fnPerKey id sEmpty 1).2.table 1 = some none
    ∧ (create fnPerKey id id (lookup fnPerKey id sEmpty 1).2 1 7).1 = true
    ∧ (lookup fnPerKey id (create fnPerKey id id (lookup fnPerKey id sEmpty 1).2 1 7).2 1).1
        = some 7 := by
  decide

/-- C3 (amended): a negative in-memory entry is auto-invalidated by a successful
`create`: `create` itself calls `refresh`, so after a successful `create(k, v)`
the table entry for `k` holds the deserialized written value and `lookup(k)`
returns it, with no explicit `refresh` call. -/
theorem C3_create_refreshes_negative_entry (s : CacheState K V B) (k : K) (v : V)
    (hneg : lookupList s.table k = some none)
    (hsucc : (create fn ser deser s k v).1 = true) :
    lookupList (create fn ser deser s k v).2.table k = some (some (deser (ser v)))
    ∧ (lookup fn deser (create fn ser deser s k v).2 k).1 = some (deser (ser v)) := by
  obtain ⟨hex, heq⟩ := create_true_cases fn ser deser s k v hsucc
  rw [heq]
  have hfile : lookupList
      (setFile (createDirectories s.fs ((fn k).dropLast)).2 (fn k) (ser v)).files (fn k)
      = some (ser v) :=
    lookupList_setList_self _ _ _
  have hload := loadFromDisk_of_file fn deser
    (setFile (createDirectories s.fs ((fn k).dropLast)).2 (fn k) (ser v)) k hfile
  have hrefresh : refresh fn deser
      { s with fs := setFile (createDirectories s.fs ((fn k).dropLast)).2 (fn k) (ser v) } k
      = { s with
          table := setList s.table k (some (deser (ser v))),
          fs := setFile (createDirectories s.fs ((fn k).dropLast)).2 (fn k) (ser v) } := by
    unfold refresh
    simp [hneg, hload]
  rw [hrefresh]
  constructor
  · exact lookupList_setList_self _ _ _
  · simp [lookup, lookupList_setList_self]

/-- C3 witness: the amended theorem applied to the concrete run of the
counterexample scenario. -/
theorem C3_create_refreshes_negative_entry_witness :
    lookupList (create fnPerKey id id (lookup fnPerKey id sEmpty 1).2 1 7).2.table 1
      = some (some 7)
    ∧ (lookup fnPerKey id (create fnPerKey id id (lookup fnPerKey id sEmpty 1).2 1 7).2 1).1
      = some 7 :=
  C3_create_refreshes_negative_entry fnPerKey id id
    (lookup fnPerKey id sEmpty 1).2 1 7 (by decide) (by decide)

/-- C6: when anything already exists at the storage location for `k`,
`create(k, v)` returns false and leaves the whole state — storage and in-memory
table — exactly unchanged. -/
theorem C6_create_duplicate_fails (s : CacheState K V B) (k : K) (v : V)
    (h : existsPath s.fs (fn k) = true) :
    create fn ser deser s k v = (false, s) := by
  simp [create, h]

/-- C6 witness: creating key 1 again in a state where its file exists fails and
changes nothing. -/
theorem C6_create_duplicate_fails_witness :
    create fnShared id id sShared1 1 99 = (false, sShared1) :=
  C6_create_duplicate_fails fnShared id id sShared1 1 99 (by decide)

/-- C7: if `create(k, v)` succeeds and the serialization collaborator round-trips
`v`, then `create(k, v)` followed by `refresh(k)` and `lookup(k)` returns `v`. -/
theorem C7_create_refresh_lookup_roundtrip (s : CacheState K V B) (k : K) (v : V)
    (hsucc : (create fn ser deser s k v).1 = true)
    (hrt : deser (ser v) = v) :
    (lookup fn deser (refresh fn deser (create fn ser deser s k v).2 k) k).1 = some v := by
  obtain ⟨hex, heq⟩ := create_true_cases fn ser deser s k v hsucc
  rw [heq]
  have hfile : lookupList
      (setFile (createDirectories s.fs ((fn k).dropLast)).2 (fn k) (ser v)).files (fn k)
      = some (ser v) :=
    lookupList_setList_self _ _ _
  have hload := loadFromDisk_of_file fn deser
    (setFile (createDirectories s.fs ((fn k).dropLast)).2 (fn k) (ser v)) k hfile
  rw [hrt] at hload
  cases htab : lookupList s.table k with
  | none =>
      have hA : refresh fn deser
          { s with fs := setFile (createDirectories s.fs ((fn k).dropLast)).2 (fn k) (ser v) } k
          = { s with fs := setFile (createDirectories s.fs ((fn k).dropLast)).2 (fn k) (ser v) } := by
        unfold refresh
        simp [htab]
      rw [hA, hA]
      simp [lookup, htab, hload]
  | some p =>
      have hA : refresh fn deser
          { s with fs := setFile (createDirectories s.fs ((fn k).dropLast)).2 (fn k) (ser v) } k
          = { s with
              table := setList s.table k (some v),
              fs := setFile (createDirectories s.fs ((fn k).dropLast)).2 (fn k) (ser v) } := by
        unfold refresh
        simp [htab, hload]
      rw [hA]
      have hB : refresh fn deser
          { s with
            table := setList s.table k (some v),
            fs := setFile (createDirectories s.fs ((fn k).dropLast)).2 (fn k) (ser v) } k
          = { s with
              table := setList (setList s.table k (some v)) k (some v),
              fs := setFile (createDirectories s.fs ((fn k).dropLast)).2 (fn k) (ser v) } := by
        unfold refresh
        simp [lookupList_setList_self, hload]
      rw [hB]
      simp [lookup, lookupList_setList_self]

/-- C7 witness: creating key 2 with value 7 on the empty state, refreshing and
looking it up returns 7 (the identity serialization round-trips). -/
theorem C7_create_refresh_lookup_roundtrip_witness :
    (lookup fnPerKey id (refresh fnPerKey id (create fnPerKey id id sEmpty 2 7).2 2) 2).1
      = some 7 :=
  C7_create_refresh_lookup_roundtrip fnPerKey id id sEmpty 2 7 (by decide) (by decide)

/-- C1: evaluation of `create` at the failing input.  Key 2's storage location
`data/common/2` does not exist and its parent directory structure fully exists —
so there is nothing that could fail to be created — yet `create(2, 5)` returns
false and changes nothing: `fs::create_directories` returns false whenever no new
directory was created, and `create` misreads that as a failure (logging
"Directory ... cannot be created" about a directory that exists). -/
theorem C1_create_fails_when_parent_directory_exists :
    existsPath sShared1.fs (fnShared 2) = false
    ∧ dirExists sShared1.fs ((fnShared 2).dropLast) = true
    ∧ create fnShared id id sShared1 2 5 = (false, sShared1) := by
  decide

/-- C2, counterexample to the claim as stated: in `sDirOnly5` the storage
location `data/5/value.txt` for key 5 does not exist (only the directory `data/5`
does), yet `remove(5)` returns true — not false — and erases the table entry
rather than leaving the table unchanged, because `remove` only checks the
parent directory of the storage location. -/
theorem C2_counterexample :
    existsPath sDirOnly5.fs (fnPerKey 5) = false
    ∧ lookupList sDirOnly5.table 5 = some (some 9)
    ∧ (remove fnPerKey sDirOnly5 5).1 = true
    ∧ (remove fnPerKey sDirOnly5 5).2.table = [] := by
  decide

/-- C2 (amended): `remove(k)` returns false and leaves the state unchanged when
the *parent directory* of the storage location does not exist; when the parent
directory exists (which holds in particular whenever the storage location
exists), `remove(k)` returns true, erases the in-memory entry for `k` (leaving
every other entry unchanged), relocates the storage content into the trash tree,
and a subsequent `lookup(k)` reports not-found.  The two auxiliary path
hypotheses rule out a filename function that aliases the trash tree with the
entry's own storage path. -/
theorem C2_remove_checks_parent_directory
    (s2 s : CacheState K V B) (k2 k : K)
    (habs : existsPath s2.fs ((fn k2).dropLast) = false)
    (hdir : existsPath s.fs ((fn k).dropLast) = true)
    (hnp : (trashDir (fn k)).isPrefixOf (fn k) = false)
    (hinj : ∀ e ∈ s.fs.files,
      renamePath ((fn k).dropLast) (trashDir (fn k)) e.1
        = renamePath ((fn k).dropLast) (trashDir (fn k)) (fn k) → e.1 = fn k) :
    remove fn s2 k2 = (false, s2)
    ∧ (remove fn s k).1 = true
    ∧ lookupList (remove fn s k).2.table k = none
    ∧ (∀ c, c ≠ k → lookupList (remove fn s k).2.table c = lookupList s.table c)
    ∧ (lookup fn deser (remove fn s k).2 k).1 = none
    ∧ lookupList (remove fn s k).2.fs.files
        (renamePath ((fn k).dropLast) (trashDir (fn k)) (fn k))
      = lookupList s.fs.files (fn k) := by
  have hmoved : ∀ x, renamePath ((fn k).dropLast) (trashDir (fn k)) x ≠ fn k :=
    renamePath_ne (isPrefixOf_dropLast (fn k)) hnp
  have hcond : ¬ ((! existsPath s.fs ((fn k).dropLast)) = true) := by
    simp [hdir]
  have h5 : ∀ fs2 : FS B, existsPath fs2 (fn k) = false →
      (lookup fn deser (erase { s with fs := fs2 } k) k).1 = none := by
    intro fs2 hf
    have h0 := lookupList_erase_self { s with fs := fs2 } k
    have hload : loadFromDisk fn deser (erase { s with fs := fs2 } k).fs k = none := by
      rw [erase_fs]
      exact loadFromDisk_of_absent fn deser fs2 k hf
    simp [lookup, h0, hload]
  have h6 : ∀ fs2 : FS B, fs2.files = s.fs.files →
      lookupList (erase
          { s with fs := rename fs2 ((fn k).dropLast) (trashDir (fn k)) } k).fs.files
        (renamePath ((fn k).dropLast) (trashDir (fn k)) (fn k))
      = lookupList s.fs.files (fn k) := by
    intro fs2 hfiles
    rw [erase_fs]
    show lookupList (fs2.files.map _) _ = _
    rw [hfiles]
    exact lookupList_map_eq _ s.fs.files (fn k) hinj
  refine ⟨?_, ?_, ?_, ?_, ?_, ?_⟩
  · simp [remove, habs]
  · simp only [remove]
    rw [if_neg hcond]
  · simp only [remove]
    rw [if_neg hcond]
    exact lookupList_erase_self _ k
  · intro c hc
    simp only [remove]
    rw [if_neg hcond]
    exact lookupList_erase_ne _ hc
  · simp only [remove]
    rw [if_neg hcond]
    exact h5 _ (existsPath_rename_false _ hmoved)
  · simp only [remove]
    rw [if_neg hcond]
    refine h6 _ ?_
    split <;> rfl

/-- C2 witness: the amended theorem at concrete states — removing key 7 from the
empty state fails and changes nothing; removing key 5 from a state where its
file exists succeeds, after which lookup misses and the content sits in the
trash tree. -/
theorem C2_remove_checks_parent_directory_witness :
    remove fnPerKey sEmpty 7 = (false, sEmpty)
    ∧ (remove fnPerKey sFull5 5).1 = true
    ∧ (lookup fnPerKey id (remove fnPerKey sFull5 5).2 5).1 = none
    ∧ lookupList (remove fnPerKey sFull5 5).2.fs.files
        (renamePath ((fnPerKey 5).dropLast) (trashDir (fnPerKey 5)) (fnPerKey 5))
      = lookupList sFull5.fs.files (fnPerKey 5) := by
  have h := C2_remove_checks_parent_directory fnPerKey id sEmpty sFull5 7 5
    (by decide) (by decide) (by decide) (by decide)
  exact ⟨h.1, h.2.1, h.2.2.2.2.1, h.2.2.2.2.2⟩

/-- C4: `clear` as intended by the source (its call `this->force_clear()` names a
member that does not exist, so instantiating the written `clear` cannot compile;
the model uses the evident `forceClear`): `clear` first performs `save` —
leaving on disk, at every path, the last non-null table entry serialized to it,
and untouched content elsewhere — and then drops every entry, leaving the
in-memory table empty. -/
theorem C4_clear_saves_then_empties (s : CacheState K V B) :
    (clear fn ser s).table = []
    ∧ (clear fn ser s).fs = (save fn ser s).fs
    ∧ ∀ p, lookupList (clear fn ser s).fs.files p
        = match savedAt fn ser s.table p with
          | some b => some b
          | none => lookupList s.fs.files p :=
  ⟨rfl, rfl, fun p => lookupList_saveFiles fn ser s.table s.fs p⟩

/-- C5: `lookup` (the source's `operator[]`) never touches storage, returns the
stored pointer when the key is in the table, loads-and-memoizes the deserialized
file content on a table miss when the file exists, and memoizes a negative (null)
entry and reports not-found on a table miss when nothing exists at the storage
location. -/
theorem C5_lookup_spec (s : CacheState K V B) (k : K) :
    (lookup fn deser s k).2.fs = s.fs
    ∧ (∀ p, lookupList s.table k = some p → lookup fn deser s k = (p, s))
    ∧ (∀ b, lookupList s.table k = none → lookupList s.fs.files (fn k) = some b →
        (lookup fn deser s k).1 = some (deser b)
        ∧ lookupList (lookup fn deser s k).2.table k = some (some (deser b)))
    ∧ (lookupList s.table k = none → existsPath s.fs (fn k) = false →
        (lookup fn deser s k).1 = none
        ∧ lookupList (lookup fn deser s k).2.table k = some none) := by
  refine ⟨?_, ?_, ?_, ?_⟩
  · unfold lookup
    split <;> rfl
  · intro p hp
    simp [lookup, hp]
  · intro b h0 hb
    have hload := loadFromDisk_of_file fn deser s.fs k hb
    simp [lookup, h0, hload, lookupList_setList_self]
  · intro h0 habs
    have hload := loadFromDisk_of_absent fn deser s.fs k habs
    simp [lookup, h0, hload, lookupList_setList_self]

/-- C5 witness: a hit on a diverged entry returns the in-memory value without
touching storage; a miss over an existing file loads it; a miss over nothing
installs a negative entry and reports not-found. -/
theorem C5_lookup_spec_witness :
    lookup fnPerKey id sDisk3 3 = (some 4, sDisk3)
    ∧ (lookup fnPerKey id sDiskOnly3 3).1 = some 8
    ∧ (lookup fnPerKey id sEmpty 3).1 = none
    ∧ lookupList (lookup fnPerKey id sEmpty 3).2.table 3 = some none
    ∧ (lookup fnPerKey id sEmpty 3).2.fs = sEmpty.fs := by
  have h1 := C5_lookup_spec fnPerKey id sDisk3 3
  have h2 := C5_lookup_spec fnPerKey id sDiskOnly3 3
  have h3 := C5_lookup_spec fnPerKey id sEmpty 3
  exact ⟨h1.2.1 (some 4) (by decide),
    (h2.2.2.1 8 (by decide) (by decide)).1,
    (h3.2.2.2 (by decide) (by decide)).1,
    (h3.2.2.2 (by decide) (by decide)).2,
    h3.1⟩

/-- C8: `save` is idempotent — it never changes the table or the directories, and
after a second `save` with no intervening mutation the file content at every path
is identical to the content after the first: each save serializes every present
(non-null) entry to its storage location, overwriting unconditionally, and skips
absent (null) entries, so repeating it rewrites the same bytes. -/
theorem C8_save_idempotent (s : CacheState K V B) :
    (save fn ser s).table = s.table
    ∧ (save fn ser (save fn ser s)).fs.dirs = (save fn ser s).fs.dirs
    ∧ ∀ p, lookupList (save fn ser (save fn ser s)).fs.files p
        = lookupList (save fn ser s).fs.files p := by
  refine ⟨rfl, ?_, ?_⟩
  · exact saveFiles_dirs fn ser s.table (saveFiles fn ser s.table s.fs)
  · intro p
    have h1 := lookupList_saveFiles fn ser s.table s.fs p
    have h2 := lookupList_saveFiles fn ser s.table (saveFiles fn ser s.table s.fs) p
    show lookupList (saveFiles fn ser s.table (saveFiles fn ser s.table s.fs)).files p
      = lookupList (saveFiles fn ser s.table s.fs).files p
    rw [h2, h1]
    cases hsv : savedAt fn ser s.table p <;> simp [hsv, h1]

/-- C9: `erase(k)` removes only the in-memory entry for `k` — storage and every
other table entry are unchanged — and a subsequent `lookup(k)` reloads `k` from
storage with the content currently (last) saved there. -/
theorem C9_erase_memory_only (s : CacheState K V B) (k : K) :
    (erase s k).fs = s.fs
    ∧ lookupList (erase s k).table k = none
    ∧ (∀ c, c ≠ k → lookupList (erase s k).table c = lookupList s.table c)
    ∧ (∀ b, lookupList s.fs.files (fn k) = some b →
        (lookup fn deser (erase s k) k).1 = some (deser b)
        ∧ lookupList (lookup fn deser (erase s k) k).2.table k = some (some (deser b))) := by
  refine ⟨erase_fs s k, lookupList_erase_self s k,
    fun c hc => lookupList_erase_ne s hc, ?_⟩
  intro b hb
  have h0 := lookupList_erase_self s k
  have hload : loadFromDisk fn deser (erase s k).fs k = some (deser b) := by
    rw [erase_fs]
    exact loadFromDisk_of_file fn deser s.fs k hb
  simp [lookup, h0, hload, lookupList_setList_self]

/-- C9 witness: erasing present key 3 leaves storage alone and the next lookup
reloads the last-saved content 8 (not the diverged in-memory 4). -/
theorem C9_erase_memory_only_witness :
    (erase sDisk3 3).fs = sDisk3.fs
    ∧ lookupList (erase sDisk3 3).table 3 = none
    ∧ lookupList (erase sDisk3 3).table 7 = lookupList sDisk3.table 7
    ∧ (lookup fnPerKey id (erase sDisk3 3) 3).1 = some 8 := by
  have h := C9_erase_memory_only fnPerKey id sDisk3 3
  exact ⟨h.1, h.2.1, h.2.2.1 7 (by decide), (h.2.2.2 8 (by decide)).1⟩

/-- C10: on a key with no table entry and nothing at its storage location,
`callGetterMemFn` returns `(false, default)` and `callUpdateMemFn` returns
`false`, and each one memoizes the miss by inserting a negative (null) entry for
the key into the table, leaving the filesystem untouched. -/
theorem C10_miss_memoized {T : Type} [Inhabited T] (s : CacheState K V B) (k : K)
    (getter : V → T) (mutate : V → V)
    (h0 : lookupList s.table k = none)
    (habs : existsPath s.fs (fn k) = false) :
    callGetterMemFn fn deser s k getter
      = ((false, default), { s with table := setList s.table k none })
    ∧ callUpdateMemFn fn deser s k mutate
      = (false, { s with table := setList s.table k none }) := by
  have hload := loadFromDisk_of_absent fn deser s.fs k habs
  constructor
  · simp [callGetterMemFn, lookup, h0, hload]
  · simp [callUpdateMemFn, lookup, h0, hload]

/-- C10 witness: calling the getter and the updater on key 4 of the empty state
fails and installs the negative entry. -/
theorem C10_miss_memoized_witness :
    callGetterMemFn fnPerKey id sEmpty 4 (id : Nat → Nat)
      = ((false, 0), { sEmpty with table := setList sEmpty.table 4 none })
    ∧ callUpdateMemFn fnPerKey id sEmpty 4 id
      = (false, { sEmpty with table := setList sEmpty.table 4 none }) :=
  C10_miss_memoized fnPerKey id sEmpty 4 id id (by decide) (by decide)

end Claims

end Mrr
